import Mathlib

/-!
Shallow embedding of the blocky resolver core (resolver/bootstrap.go and the
ConditionalUpstreamResolver file) for checking the natural-language spec.

External collaborators (the miekg/dns library, the parallel/filter/cache stages,
the Go system resolver, the config package and the util helpers, which are not
part of the analysed source) are passed in as explicit oracle parameters or
modelled at their interface boundary, as documented on each definition.
-/

set_option autoImplicit false

namespace Blocky

/-- Addresses (`net.IP`) are modelled by their textual value; only identity of
addresses matters to the analysed code, never their byte layout. -/
abbrev IP := String

/-- Go `error` values are modelled by their message. -/
abbrev Err := String

/-- DNS question/record types used by the code (`dns.TypeA`, `dns.TypeAAAA`);
`other` stands for every other `dns.Type` value. -/
inductive QType
  | A
  | AAAA
  | other
deriving DecidableEq

/-- A resource record in an answer section: `dns.A` carries an IPv4 address,
`dns.AAAA` an IPv6 address; `other` stands for any other record type. -/
inductive RR
  | A (ip : IP)
  | AAAA (ip : IP)
  | other
deriving DecidableEq

/-- A DNS question (`dns.Question`): only the fields the code touches. -/
structure Question where
  name : String
  qtype : QType
deriving DecidableEq

/-- A DNS message (`dns.Msg`): only the fields the code touches. -/
structure DnsMsg where
  question : List Question
  rcode : Nat
  answer : List RR
deriving DecidableEq

/-- `model.ResponseType`. Only the tags the analysed code assigns are named. -/
inductive ResponseType
  | RESOLVED
  | CONDITIONAL
  | other
deriving DecidableEq

/-- `model.Request`. The per-request logger field is dropped: it is a pure
logging collaborator. -/
structure Request where
  req : DnsMsg
deriving DecidableEq

/-- `model.Response`. -/
structure Response where
  res : DnsMsg
  reason : String
  rtype : ResponseType
deriving DecidableEq

/-- The `Resolver` capability: `Resolve(req) -> (resp, err)`. Stateful Go
resolvers are modelled as pure functions; the analysed code never relies on a
collaborating resolver mutating the request. -/
abbrev Resolver := Request → Except Err Response

deriving instance DecidableEq for Except

/-- `dns.RcodeSuccess`. -/
def RcodeSuccess : Nat := 0

/-- Whether the string ends with the given character (string operations are
carried out on the character list so that every definition evaluates). -/
def endsWithChar (s : String) (c : Char) : Bool :=
  s.data.getLast? == some c

/-- `dns.Fqdn` (external miekg/dns collaborator): appends a trailing dot when
the name is not already fully qualified. The library's handling of
backslash-escaped trailing dots is omitted; no analysed input contains
backslashes. -/
def fqdn (s : String) : String :=
  if endsWithChar s '.' then s else s ++ "."

/-- `strings.ToLower`, restricted to ASCII as supplied by domain names. -/
def toLowerStr (s : String) : String :=
  String.mk (s.data.map Char.toLower)

/-- `strings.TrimSuffix(s, ".")`: removes one trailing dot when present. -/
def trimTrailingDot (s : String) : String :=
  if endsWithChar s '.' then String.mk s.data.dropLast else s

/-- Modelled from the spec: `util.ExtractDomain` (repository code not under
src/) extracts the query domain from a question for the lower-cased mapping
keys, i.e. the lower-cased question name with the trailing qualification dot
stripped. -/
def extractDomain (q : Question) : String :=
  trimTrailingDot (toLowerStr q.name)

/-- The name of `Question[0]`; empty when the question section is empty (Go
would panic on the index, but every analysed call path has one question). -/
def DnsMsg.q0Name (m : DnsMsg) : String :=
  match m.question with
  | [] => ""
  | q :: _ => q.name

/-- In-place write `m.Question[0].Name = name`; identity on an empty question
section (Go would panic there). -/
def DnsMsg.setQ0Name (m : DnsMsg) (name : String) : DnsMsg :=
  match m.question with
  | [] => m
  | q :: rest => { m with question := { q with name := name } :: rest }

/-- Lookup in the conditional `mapping` (a Go map from lower-cased domain to
sub-pipeline resolver), modelled as an association list. -/
def lookupMapping (m : List (String × Resolver)) (key : String) : Option Resolver :=
  (m.find? (fun p => p.1 == key)).map Prod.snd

/-- `domain = domain[strings.Index(domain, ".")+1:]`: the remainder after the
first dot, or `none` when the domain has no dot (the loop breaks). -/
def dropThroughFirstDot : List Char → Option (List Char)
  | [] => none
  | c :: rest => if c = '.' then some rest else dropThroughFirstDot rest

/-- The body of the suffix-matching loop of
`ConditionalUpstreamResolver.processRequest`, with an explicit iteration bound
(the loop strictly shrinks the domain, so `domain.length + 1` iterations always
suffice; see `lookupDotted`): while the domain is non-empty, look it up in the
mapping; on a miss strip everything through the first dot and retry, stopping
when no dot remains. Returns the matched mapping key with its resolver. -/
def lookupDottedFuel (m : List (String × Resolver)) :
    Nat → List Char → Option (String × Resolver)
  | 0, _ => none
  | fuel + 1, domain =>
    if domain.isEmpty then none
    else
      match lookupMapping m (String.mk domain) with
      | some reso => some (String.mk domain, reso)
      | none =>
        match dropThroughFirstDot domain with
        | some rest => lookupDottedFuel m fuel rest
        | none => none

/-- The suffix-matching loop of `ConditionalUpstreamResolver.processRequest`,
run with a sufficient iteration bound. -/
def lookupDotted (m : List (String × Resolver)) (domain : List Char) :
    Option (String × Resolver) :=
  lookupDottedFuel m (domain.length + 1) domain

/-- For each dot of the domain, in left-to-right order, the suffix that follows
it. Helper for the spec-side candidate list below. -/
def suffixesAfterDots : List Char → List (List Char)
  | [] => []
  | c :: rest =>
    if c = '.' then rest :: suffixesAfterDots rest else suffixesAfterDots rest

/-- Spec-side definition (from the spec words, to be compared with the source
loop): the candidate domains tried most-specific-first, i.e. the full domain,
then the result of progressively stripping the leftmost label, until no labels
remain. -/
def specSuffixCandidates (domain : List Char) : List (List Char) :=
  if domain.isEmpty then []
  else domain :: (suffixesAfterDots domain).takeWhile (fun s => !s.isEmpty)

/-- `ConditionalUpstreamResolver`: the per-domain mapping plus the next chain
link (the embedded `NextResolver`). Config/type metadata fields are pure
plumbing and are dropped. -/
structure ConditionalUpstreamResolver where
  mapping : List (String × Resolver)
  next : Resolver

/-- `ConditionalUpstreamResolver.internalResolve`: rewrites the question name
of the (mutable, by-reference) request to the fully-qualified form, resolves
through the matched sub-pipeline, and on success tags the response and writes
the request's current question name into the response's question. Returns the
request in its state after the call together with the result. -/
def internalResolve (reso : Resolver) (doFQ dom : String) (req : Request) :
    Request × Except Err Response :=
  let req := { req with req := req.req.setQ0Name (fqdn doFQ) }
  match reso req with
  | .error e => (req, .error e)
  | .ok response =>
    let response := { response with reason := "CONDITIONAL", rtype := .CONDITIONAL }
    let response :=
      if response.res.question.length > 0 then
        { response with res := response.res.setQ0Name req.req.q0Name }
      else response
    (req, .ok response)

/-- `ConditionalUpstreamResolver.processRequest`. The first component is the
request in its state after the call; the second is `some` result when the
domain matched (the Go `resolved` flag), `none` otherwise. The unused `dom`
argument of `internalResolve` feeds only the log. -/
def ConditionalUpstreamResolver.processRequest (r : ConditionalUpstreamResolver)
    (request : Request) : Request × Option (Except Err Response) :=
  let domainFromQuestion := extractDomain (request.req.question.headD ⟨"", .other⟩)
  if domainFromQuestion.data.contains '.' then
    match lookupDotted r.mapping domainFromQuestion.data with
    | some (dom, reso) =>
      let res := internalResolve reso domainFromQuestion dom request
      (res.1, some res.2)
    | none => (request, none)
  else
    match lookupMapping r.mapping "." with
    | some reso =>
      let res := internalResolve reso domainFromQuestion domainFromQuestion request
      (res.1, some res.2)
    | none => (request, none)

/-- `ConditionalUpstreamResolver.Resolve`: consults the mapping when non-empty
and otherwise (or on no match) delegates to the next chain link with the
request unchanged. The first component is the request in its state after the
call. -/
def ConditionalUpstreamResolver.Resolve (r : ConditionalUpstreamResolver)
    (request : Request) : Request × Except Err Response :=
  if r.mapping.length > 0 then
    match r.processRequest request with
    | (req, some res) => (req, res)
    | (_, none) => (request, r.next request)
  else (request, r.next request)

/-! Bootstrap subsystem. -/

/-- `net.ParseIP` (Go standard library collaborator): `some ip` exactly when
the hostname is a literal IP address. -/
abbrev ParseIP := String → Option IP

/-- Modelled from the spec: `util.NewMsgWithQuestion` (repository code not
under src/) builds a single-question request of the given type, using the
fully-qualified form of the name. -/
def newMsgWithQuestion (question : String) (qType : QType) : DnsMsg :=
  { question := [⟨fqdn question, qType⟩], rcode := RcodeSuccess, answer := [] }

/-- The answer-section loop of `Bootstrap.resolveType`: collects the addresses
of `dns.A` and `dns.AAAA` records in order, skipping every other record. -/
def extractAnswerIPs : List RR → List IP
  | [] => []
  | .A ip :: rest => ip :: extractAnswerIPs rest
  | .AAAA ip :: rest => ip :: extractAnswerIPs rest
  | .other :: rest => extractAnswerIPs rest

/-- Spec-side: the address carried by an address-type record. -/
def rrAddress : RR → Option IP
  | .A ip => some ip
  | .AAAA ip => some ip
  | .other => none

/-- The error side of the pair returned by `Bootstrap.resolve` and
`Bootstrap.resolveUpstream`: either a system-resolver/chain error, the
"no such host" error, or the `multierror` aggregation of per-type errors. -/
inductive UpErr
  | sysErr (e : Err)
  | noSuchHost (hostname : String)
  | multi (errs : List Err)
deriving DecidableEq

/-- `Bootstrap`: the bootstrap chain (`nil` when bootstrap DNS is not
configured) and the `bootstrapedResolvers` map. Resolver instances are
identified by a numeric identity (Go map keys compare by instance identity);
the logger and the replaceable system-resolver handle are collaborators. -/
structure Bootstrap where
  resolver : Option Resolver
  bootstraped : List (Nat × List IP)

/-- `v4v6QTypes`. -/
def v4v6QTypes : List QType := [.A, .AAAA]

/-- `Bootstrap.resolveType`. `chain` is the `b.resolver` field, non-nil on
every call path that reaches this method. -/
def Bootstrap.resolveType (parseIP : ParseIP) (chain : Resolver)
    (hostname : String) (qType : QType) : Except Err (List IP) :=
  match parseIP hostname with
  | some ip => .ok [ip]
  | none =>
    match chain { req := newMsgWithQuestion hostname qType } with
    | .error e => .error e
    | .ok rsp =>
      if rsp.res.rcode ≠ RcodeSuccess then .ok []
      else .ok (extractAnswerIPs rsp.res.answer)

/-- The loop body of `Bootstrap.resolve`: on a per-type error append it to the
multierror and continue; otherwise append the addresses. -/
def resolveStep (parseIP : ParseIP) (chain : Resolver) (hostname : String)
    (acc : List IP × List Err) (qType : QType) : List IP × List Err :=
  match Bootstrap.resolveType parseIP chain hostname qType with
  | .error e => (acc.1, acc.2 ++ [e])
  | .ok qIPs => (acc.1 ++ qIPs, acc.2)

/-- `Bootstrap.resolve`: one resolution per requested record type, returning
the Go pair `(ips, err)` where `err = none` models a nil error. -/
def Bootstrap.resolve (parseIP : ParseIP) (chain : Resolver) (hostname : String)
    (qTypes : List QType) : List IP × Option UpErr :=
  let acc := qTypes.foldl (resolveStep parseIP chain hostname) ([], [])
  if acc.2 = [] ∧ acc.1 = [] then ([], some (.noSuchHost hostname))
  else (acc.1, if acc.2 = [] then none else some (.multi acc.2))

/-- Lookup `b.bootstraped[r]` by resolver instance identity. -/
def lookupBootstraped (m : List (Nat × List IP)) (r : Nat) : Option (List IP) :=
  (m.find? (fun p => p.1 == r)).map Prod.snd

/-- The system resolver collaborator (`net.Resolver.LookupIP` under the
configured timeout and IP-version preference), returning the Go result pair. -/
abbrev SystemLookup := String → List IP × Option UpErr

/-- `Bootstrap.resolveUpstream`: system resolver when unconfigured, the
precomputed hardcoded list for a bootstraped resolver instance, and a full
dual-family resolve otherwise. -/
def Bootstrap.resolveUpstream (parseIP : ParseIP) (sys : SystemLookup)
    (b : Bootstrap) (r : Nat) (host : String) : List IP × Option UpErr :=
  match b.resolver with
  | none => sys host
  | some chain =>
    match lookupBootstraped b.bootstraped r with
    | some ips => (ips, none)
    | none => Bootstrap.resolve parseIP chain host v4v6QTypes

/-- `IPSet`: round-robin cursor over the addresses resolved for one
hostname. -/
structure IPSet where
  values : List IP
  index : Nat
deriving DecidableEq

/-- `newIPSet`: stores the list as-is with the cursor at zero. It performs no
emptiness check. -/
def newIPSet (ips : List IP) : IPSet :=
  { values := ips, index := 0 }

/-- `IPSet.Current`: `values[index]`; the out-of-range case (a Go index panic)
is modelled as `none`. -/
def IPSet.Current (s : IPSet) : Option IP :=
  s.values.get? s.index

/-- `uint32` wraparound modulus for the cursor arithmetic. -/
def uint32Mod : Nat := 4294967296

/-- `IPSet.Next`: `uint32(int(index+1) % len(values))`. The `+1` wraps at
2^32. On an empty set Go would divide by zero; the model is only used under
the non-emptiness invariant. A CAS that loses against a concurrent advance is
a no-op, so any interleaved execution is a subsequence of these steps. -/
def IPSet.Next (s : IPSet) : IPSet :=
  { s with index := ((s.index + 1) % uint32Mod) % s.values.length }

/-- The states reachable from a given `IPSet` by finitely many `Next` calls
(a lost CAS contributes no step). -/
inductive IPSetReach (s0 : IPSet) : IPSet → Prop
  | refl : IPSetReach s0 s0
  | step (s : IPSet) : IPSetReach s0 s → IPSetReach s0 s.Next

/-- The identity and configured host of an `*UpstreamResolver`
(`r.upstream.Host`). -/
structure UpstreamResolverRef where
  id : Nat
  host : String
deriving DecidableEq

/-- `Bootstrap.UpstreamIPs`. -/
def Bootstrap.UpstreamIPs (parseIP : ParseIP) (sys : SystemLookup)
    (b : Bootstrap) (r : UpstreamResolverRef) : Except UpErr IPSet :=
  match parseIP r.host with
  | some ip => .ok (newIPSet [ip])
  | none =>
    match Bootstrap.resolveUpstream parseIP sys b r.id r.host with
    | (_, some e) => .error e
    | (ips, none) => .ok (newIPSet ips)

/-! Bootstrap construction. -/

/-- `config.NetProtocol`: the discriminator the code inspects
(`NetProtocolTcpUdp` versus the other transports). -/
inductive NetProtocol
  | tcpUdp
  | tcpTls
  | https
deriving DecidableEq

/-- The upstream descriptor collaborator: protocol tag, host, and the
`IsDefault()` unconfigured-placeholder flag, at its interface boundary. -/
structure Upstream where
  net : NetProtocol
  host : String
  isDefault : Bool
deriving DecidableEq

/-- One `config.BootstrapDNSConfig` entry: an upstream plus its hardcoded
IP list. -/
structure BootstrapDNSEntry where
  upstream : Upstream
  ips : List IP
deriving DecidableEq

/-- The per-entry validation errors of `newBootstrapedResolvers`, carrying the
same data as the formatted Go messages (1-based item index and the offending
configuration). -/
inductive BootErr
  | upstreamNotConfigured (i : Nat) (ips : List IP)
  | mustUseIP (i : Nat) (u : Upstream)
  | requiresIPs (i : Nat) (u : Upstream)
deriving DecidableEq

/-- Pair each entry with its user-visible 1-based index. -/
def enumFrom1 {α : Type} (l : List α) : List (Nat × α) :=
  l.enum.map (fun p => (p.1 + 1, p.2))

/-- The loop body of `newBootstrapedResolvers`: either record a validation
error, or register a fresh resolver instance (identified by the entry index)
with its hardcoded addresses. -/
def bootstrapStep (parseIP : ParseIP)
    (acc : List (Nat × List IP) × List BootErr) (p : Nat × BootstrapDNSEntry) :
    List (Nat × List IP) × List BootErr :=
  let i := p.1
  let upstreamCfg := p.2
  let upstream := upstreamCfg.upstream
  if upstream.isDefault then
    (acc.1, acc.2 ++ [.upstreamNotConfigured i upstreamCfg.ips])
  else if upstream.net = NetProtocol.tcpUdp then
    match parseIP upstream.host with
    | none => (acc.1, acc.2 ++ [.mustUseIP i upstream])
    | some ip => (acc.1 ++ [(i, [ip])], acc.2)
  else if upstreamCfg.ips = [] then
    (acc.1, acc.2 ++ [.requiresIPs i upstream])
  else
    (acc.1 ++ [(i, upstreamCfg.ips)], acc.2)

/-- `newBootstrapedResolvers`: validates every entry, collecting the errors
into a multierror; fails with all of them when any entry was invalid. -/
def newBootstrapedResolvers (parseIP : ParseIP) (cfg : List BootstrapDNSEntry) :
    Except (List BootErr) (List (Nat × List IP)) :=
  let acc := (enumFrom1 cfg).foldl (bootstrapStep parseIP) ([], [])
  if acc.2 = [] then .ok acc.1 else .error acc.2

/-- Spec-side per-entry validation verdict, to be compared with the loop: the
error recorded for an invalid entry, `none` for a valid one. -/
def entryValidationError (parseIP : ParseIP) (p : Nat × BootstrapDNSEntry) :
    Option BootErr :=
  let i := p.1
  let e := p.2
  if e.upstream.isDefault then some (.upstreamNotConfigured i e.ips)
  else if e.upstream.net = NetProtocol.tcpUdp then
    match parseIP e.upstream.host with
    | none => some (.mustUseIP i e.upstream)
    | some _ => none
  else if e.ips = [] then some (.requiresIPs i e.upstream)
  else none

/-- The error of `NewBootstrap`: the single wrapping error around the
validation multierror, or a failure of the parallel-resolver collaborator. -/
inductive NewBootstrapErr
  | invalidBootstrapDNS (errs : List BootErr)
  | parallelResolver (e : Err)
deriving DecidableEq

/-- `NewBootstrap`. `mkChain` is the collaborator building the
filter-cache-parallel chain over the registered bootstrap resolver instances;
an unconfigured bootstrap keeps a nil chain and an empty map. -/
def NewBootstrap (parseIP : ParseIP)
    (mkChain : List (Nat × List IP) → Except Err Resolver)
    (cfg : List BootstrapDNSEntry) : Except NewBootstrapErr Bootstrap :=
  match newBootstrapedResolvers parseIP cfg with
  | .error errs => .error (.invalidBootstrapDNS errs)
  | .ok bootstraped =>
    if bootstraped.isEmpty then .ok { resolver := none, bootstraped := [] }
    else
      match mkChain bootstraped with
      | .error e => .error (.parallelResolver e)
      | .ok chain => .ok { resolver := some chain, bootstraped := bootstraped }

/-! The HTTP transport and its dial hook. -/

/-- `config.IPVersion` and its `QTypes()` method. -/
inductive IPVersion
  | dual
  | v4
  | v6
deriving DecidableEq

/-- `IPVersion.QTypes`. -/
def IPVersion.qTypes : IPVersion → List QType
  | .dual => v4v6QTypes
  | .v4 => [.A]
  | .v6 => [.AAAA]

/-- The record types the dial hook requests: a globally configured single IP
version wins; otherwise the "4"/"6" suffix of the network string decides;
otherwise both families. -/
def dialHookQTypes (connectIPVersion : IPVersion) (network : String) : List QType :=
  if connectIPVersion ≠ IPVersion.dual then connectIPVersion.qTypes
  else if endsWithChar network '4' then [.A]
  else if endsWithChar network '6' then [.AAAA]
  else v4v6QTypes

/-- The value produced by the standard dialer collaborator. -/
structure DialedConn where
  network : String
  addr : String
deriving DecidableEq

/-- Errors surfaced by the dial hook. -/
inductive DialErr
  | splitHostPortErr (e : Err)
  | resolveErr (e : UpErr)
deriving DecidableEq

/-- `net.JoinHostPort`, without the bracketing of IPv6 literals (irrelevant to
every analysed claim). -/
def joinHostPort (host port : String) : String :=
  host ++ ":" ++ port

/-- `http.Transport`, reduced to the one field the code sets: the optional
custom `DialContext` hook. -/
structure HTTPTransport where
  dialContext : Option (String → String → Except DialErr DialedConn)

/-- `Bootstrap.NewHTTPTransport`: a default transport (no dial hook) when the
bootstrap is unconfigured; otherwise a transport whose hook splits the
address, resolves the host through the bootstrap chain, picks one resolved
address at random (`randPick` models `rand.Intn`, in range when its argument
is positive) and dials it with the standard dialer collaborator. -/
def Bootstrap.NewHTTPTransport (parseIP : ParseIP)
    (split : String → Except Err (String × String))
    (connectIPVersion : IPVersion) (randPick : Nat → Nat)
    (dial : String → String → DialedConn) (b : Bootstrap) : HTTPTransport :=
  match b.resolver with
  | none => { dialContext := none }
  | some chain =>
    { dialContext := some (fun network addr =>
        match split addr with
        | .error e => .error (.splitHostPortErr e)
        | .ok (host, port) =>
          let qTypes := dialHookQTypes connectIPVersion network
          match Bootstrap.resolve parseIP chain host qTypes with
          | (_, some e) => .error (.resolveErr e)
          | (ips, none) =>
            let ip := (ips.get? (randPick ips.length)).getD ""
            .ok (dial network (joinHostPort ip port))) }

/-! Concrete collaborator instances used to evaluate the development on
explicit inputs. -/

/-- A `net.ParseIP` instance on which no hostname is a literal address. -/
def pfNone : ParseIP := fun _ => none

/-- A `net.ParseIP` instance recognising the single literal `1.2.3.4`. -/
def pfLit : ParseIP := fun s => if s = "1.2.3.4" then some "1.2.3.4" else none

/-- An upstream sub-pipeline that answers with an empty success echoing the
question it was asked, the way a real upstream reply carries the question. -/
def echoResolver : Resolver := fun req =>
  .ok { res := { question := req.req.question, rcode := RcodeSuccess, answer := [] },
        reason := "RESOLVED", rtype := .RESOLVED }

/-- A next chain link that reports having been reached. -/
def nextFail : Resolver := fun _ => .error "next resolver reached"

/-- A conditional resolver mapping only `example.com`. -/
def condEx : ConditionalUpstreamResolver :=
  { mapping := [("example.com", echoResolver)], next := nextFail }

/-- A request for `sub.example.com`, deliberately not fully qualified. -/
def reqSub : Request :=
  { req := { question := [⟨"sub.example.com", .A⟩], rcode := 0, answer := [] } }

/-- A bootstrap chain on which the A query errors and the AAAA query yields
one address. -/
def chainAErr : Resolver := fun req =>
  match (req.req.question.headD ⟨"", .other⟩).qtype with
  | .A => .error "A lookup failed"
  | _ => .ok { res := { question := req.req.question, rcode := RcodeSuccess,
                        answer := [.AAAA "2001:db8::1"] },
               reason := "RESOLVED", rtype := .RESOLVED }

/-- A bootstrap chain that reports having been invoked. -/
def chainBoom : Resolver := fun _ => .error "chain invoked"

/-- A system resolver that reports having been invoked. -/
def sysBoom : SystemLookup := fun _ => ([], some (.sysErr "system resolver invoked"))

/-- A bootstraped-resolvers map with one entry of identity 1. -/
def bootsEx : List (Nat × List IP) := [(1, ["9.9.9.9"])]

/-- A host-port splitter that always fails; the unconfigured transport never
consults it. -/
def split0 : String → Except Err (String × String) := fun _ => .error "no split"

/-- A standard dialer collaborator recording its arguments. -/
def dial0 : String → String → DialedConn := fun n a => ⟨n, a⟩

/-- A bootstrap chain answering every query with a success response holding a
mixed answer section. -/
def chainMixed : Resolver := fun _ =>
  .ok { res := { question := [], rcode := RcodeSuccess,
                 answer := [.A "192.0.2.1", .other, .AAAA "2001:db8::2"] },
        reason := "", rtype := .RESOLVED }

/-- A bootstrap chain answering every query with a SERVFAIL-style non-success
response whose answer section is nevertheless non-empty. -/
def chainServFail : Resolver := fun _ =>
  .ok { res := { question := [], rcode := 2, answer := [.A "192.0.2.9"] },
        reason := "", rtype := .RESOLVED }

/-- A raw TCP+UDP bootstrap upstream configured by hostname instead of a
literal IP. -/
def upBad : Upstream := { net := .tcpUdp, host := "dns.example", isDefault := false }

/-- A bootstrap configuration with one invalid entry (raw-protocol hostname)
followed by one valid entry. -/
def cfgBad : List BootstrapDNSEntry :=
  [{ upstream := upBad, ips := [] },
   { upstream := { net := .https, host := "doh.example", isDefault := false },
     ips := ["9.9.9.9"] }]

/-- A chain-construction collaborator; never reached on the validation-error
path. -/
def mkChain0 : List (Nat × List IP) → Except Err Resolver :=
  fun _ => .error "chain not built"

/-- The per-candidate lookup used to express the source matching loop as a
first-match search over the spec-side candidate list. -/
def candidateHit (m : List (String × Resolver)) (s : List Char) :
    Option (String × Resolver) :=
  (lookupMapping m (String.mk s)).map fun reso => (String.mk s, reso)

/-- The response `condEx` produces for `reqSub`: tagged conditional, carrying
the fully-qualified question name. -/
def respEx : Response :=
  { res := { question := [⟨"sub.example.com.", .A⟩], rcode := 0, answer := [] },
    reason := "CONDITIONAL", rtype := .CONDITIONAL }

/-- The sub-pipeline of the `example.com` conditional entry. -/
def u1c : Resolver := fun req =>
  .ok { res := { question := req.req.question, rcode := RcodeSuccess,
                 answer := [.A "10.0.0.1"] },
        reason := "RESOLVED", rtype := .RESOLVED }

/-- The sub-pipeline of the `.` (dot-free single label) conditional entry. -/
def u2c : Resolver := fun req =>
  .ok { res := { question := req.req.question, rcode := RcodeSuccess,
                 answer := [.A "10.0.0.2"] },
        reason := "RESOLVED", rtype := .RESOLVED }

/-- The spec's example mapping: `example.com` and a root `.` entry. -/
def condRoot : ConditionalUpstreamResolver :=
  { mapping := [("example.com", u1c), (".", u2c)], next := nextFail }

/-- A dot-free single-label query. -/
def reqOther : Request :=
  { req := { question := [⟨"other", .A⟩], rcode := 0, answer := [] } }

/-- A dotted query matching no suffix of the mapping. -/
def reqFooOrg : Request :=
  { req := { question := [⟨"foo.org", .A⟩], rcode := 0, answer := [] } }

/-- A sub-sub-domain question under the `example.com` entry. -/
def qABEx : Question := ⟨"a.b.example.com", .A⟩

/-- The request holding `qABEx`. -/
def reqABEx : Request :=
  { req := { question := [qABEx], rcode := 0, answer := [] } }

end Blocky

namespace Blocky

/-! Shared invariant lemmas for the round-robin cursor. -/

/-- `Next` never touches the stored address list. -/
theorem ipsetReach_values {ips : List IP} {s : IPSet}
    (h : IPSetReach (newIPSet ips) s) : s.values = ips := by
  induction h with
  | refl => rfl
  | step s hs ih => exact ih

/-- The cursor stays a valid index across any finite sequence of advances. -/
theorem ipsetReach_index_lt {ips : List IP} (hne : ips ≠ []) {s : IPSet}
    (h : IPSetReach (newIPSet ips) s) : s.index < s.values.length := by
  induction h with
  | refl => simpa [newIPSet] using List.length_pos.mpr hne
  | step s hs _ =>
    have hv : s.values = ips := ipsetReach_values hs
    have hpos : 0 < s.values.length := by
      rw [hv]
      exact List.length_pos.mpr hne
    simpa [IPSet.Next] using Nat.mod_lt _ hpos

/-- C8: for every IPSet built from a non-empty address list, after any finite
sequence of Next calls the cursor is a valid index into the values (being a
natural number it is also non-negative), Current returns an element of the
original address list, and the underlying list is exactly the one supplied at
construction, never mutated. -/
theorem ipset_roundrobin_closure (ips : List IP) (s : IPSet) (hne : ips ≠ [])
    (h : IPSetReach (newIPSet ips) s) :
    s.index < s.values.length ∧ s.values = ips ∧
      ∃ x, s.Current = some x ∧ x ∈ ips := by
  have hv := ipsetReach_values h
  have hi := ipsetReach_index_lt hne h
  refine ⟨hi, hv, s.values.get ⟨s.index, hi⟩, ?_, ?_⟩
  · simp [IPSet.Current, List.get?_eq_get hi]
  · rw [← hv]
    exact s.values.get_mem _ _

/-- Witness for C8 at a concrete two-address set after one advance. -/
theorem ipset_roundrobin_closure_witness :
    (newIPSet ["1.1.1.1", "9.9.9.9"]).Next.index <
        (newIPSet ["1.1.1.1", "9.9.9.9"]).Next.values.length ∧
      (newIPSet ["1.1.1.1", "9.9.9.9"]).Next.values = ["1.1.1.1", "9.9.9.9"] ∧
      ∃ x, (newIPSet ["1.1.1.1", "9.9.9.9"]).Next.Current = some x ∧
        x ∈ ["1.1.1.1", "9.9.9.9"] :=
  ipset_roundrobin_closure ["1.1.1.1", "9.9.9.9"] _ (by decide)
    (IPSetReach.step _ IPSetReach.refl)

/-- C9 counterexample: `newIPSet` performs no emptiness check, so the IPSet
built by the constructor from the empty list is obtainable, and on it Current
fails (indexes out of bounds, modelled as `none`). -/
theorem newIPSet_empty_current_fails :
    IPSet.Current (newIPSet ([] : List IP)) = none := rfl

/-- C9 amended: non-emptiness is not checked by the constructor; Current never
fails on an IPSet built from a non-empty address list, after any finite
sequence of Next calls — and every call site in the code supplies a non-empty
list. -/
theorem ipset_current_never_fails_nonempty (ips : List IP) (s : IPSet)
    (hne : ips ≠ []) (h : IPSetReach (newIPSet ips) s) :
    (IPSet.Current s).isSome = true := by
  have hi := ipsetReach_index_lt hne h
  unfold IPSet.Current
  rw [List.get?_eq_get hi]
  rfl

/-- Witness for the amended C9 at a concrete singleton set after two
advances. -/
theorem ipset_current_never_fails_nonempty_witness :
    (IPSet.Current (newIPSet ["10.0.0.1"]).Next.Next).isSome = true :=
  ipset_current_never_fails_nonempty ["10.0.0.1"] _ (by decide)
    (IPSetReach.step _ (IPSetReach.step _ IPSetReach.refl))

/-- C5: on a configured (Ready) Bootstrap, resolveUpstream applied to a
resolver instance that is a key of bootstrapedResolvers returns that key's
precomputed hardcoded address list with a nil error. The chain is universally
quantified and absent from the result, so the Bootstrap's own resolution chain
is not invoked (nor is the system resolver). -/
theorem resolveUpstream_bootstraped_shortcircuit (parseIP : ParseIP)
    (sys : SystemLookup) (chain : Resolver) (boots : List (Nat × List IP))
    (r : Nat) (host : String) (ips : List IP)
    (hlookup : lookupBootstraped boots r = some ips) :
    Bootstrap.resolveUpstream parseIP sys ⟨some chain, boots⟩ r host = (ips, none) := by
  simp [Bootstrap.resolveUpstream, hlookup]

/-- Witness for C5: the bootstraped entry of identity 1 short-circuits to its
hardcoded list even though the chain and system resolver would both fail. -/
theorem resolveUpstream_bootstraped_shortcircuit_witness :
    Bootstrap.resolveUpstream pfNone sysBoom ⟨some chainBoom, bootsEx⟩ 1 "dns.example"
      = (["9.9.9.9"], none) :=
  resolveUpstream_bootstraped_shortcircuit pfNone sysBoom chainBoom bootsEx 1
    "dns.example" ["9.9.9.9"] (by decide)

/-- C6: for a hostname that parses as a literal IP, UpstreamIPs returns the
singleton IPSet holding exactly that IP — for every system resolver and every
Bootstrap state, so no resolution is performed — and resolveType returns that
IP verbatim for every chain and every requested record type. -/
theorem literal_host_no_resolution (parseIP : ParseIP) (sys : SystemLookup)
    (b : Bootstrap) (r : UpstreamResolverRef) (ip : IP)
    (hlit : parseIP r.host = some ip) :
    Bootstrap.UpstreamIPs parseIP sys b r = .ok (newIPSet [ip]) ∧
      ∀ (chain : Resolver) (qType : QType),
        Bootstrap.resolveType parseIP chain r.host qType = .ok [ip] := by
  constructor
  · simp [Bootstrap.UpstreamIPs, hlit]
  · intro chain qType
    simp [Bootstrap.resolveType, hlit]

/-- Witness for C6 at the literal host `1.2.3.4`, with a chain and system
resolver that would fail if consulted. -/
theorem literal_host_no_resolution_witness :
    Bootstrap.UpstreamIPs pfLit sysBoom ⟨some chainBoom, []⟩ ⟨7, "1.2.3.4"⟩
        = .ok (newIPSet ["1.2.3.4"]) ∧
      Bootstrap.resolveType pfLit chainBoom "1.2.3.4" QType.AAAA = .ok ["1.2.3.4"] := by
  have h := literal_host_no_resolution pfLit sysBoom ⟨some chainBoom, []⟩
    ⟨7, "1.2.3.4"⟩ "1.2.3.4" (by decide)
  exact ⟨h.1, h.2 chainBoom QType.AAAA⟩

/-- C10: when the Bootstrap is unconfigured (nil resolver field),
NewHTTPTransport returns the default transport with no custom dial hook, so
outbound dials bypass the bootstrap interception (including the
system-resolver fallback inside resolveUpstream) entirely. -/
theorem newHTTPTransport_unconfigured_no_hook (parseIP : ParseIP)
    (split : String → Except Err (String × String)) (connectIPVersion : IPVersion)
    (randPick : Nat → Nat) (dial : String → String → DialedConn) (b : Bootstrap)
    (hunconf : b.resolver = none) :
    (Bootstrap.NewHTTPTransport parseIP split connectIPVersion randPick dial b).dialContext
      = none := by
  cases b with
  | mk res boots =>
    cases hunconf
    rfl

/-- Witness for C10 at a concrete unconfigured Bootstrap. -/
theorem newHTTPTransport_unconfigured_no_hook_witness :
    (Bootstrap.NewHTTPTransport pfNone split0 IPVersion.dual (fun n => n) dial0
        ⟨none, []⟩).dialContext = none :=
  newHTTPTransport_unconfigured_no_hook pfNone split0 IPVersion.dual (fun n => n)
    dial0 ⟨none, []⟩ rfl

/-- The answer-section loop collects exactly the addresses of the A and AAAA
records, in order, ignoring every other record type. -/
theorem extractAnswerIPs_eq_filterMap (l : List RR) :
    extractAnswerIPs l = l.filterMap rrAddress := by
  induction l with
  | nil => rfl
  | cons a rest ih => cases a <;> simp [extractAnswerIPs, rrAddress, ih]

/-- C7: for a non-literal hostname, resolveType propagates a chain error as an
error; returns an empty list with no error on a non-success rcode; and on a
success rcode returns exactly the addresses of the A and AAAA answer records,
ignoring all other record types. -/
theorem resolveType_nonliteral_behaviour (parseIP : ParseIP) (chain : Resolver)
    (hostname : String) (qType : QType) (hnl : parseIP hostname = none) :
    (∀ e, chain { req := newMsgWithQuestion hostname qType } = .error e →
        Bootstrap.resolveType parseIP chain hostname qType = .error e) ∧
    (∀ rsp, chain { req := newMsgWithQuestion hostname qType } = .ok rsp →
        rsp.res.rcode ≠ RcodeSuccess →
        Bootstrap.resolveType parseIP chain hostname qType = .ok []) ∧
    (∀ rsp, chain { req := newMsgWithQuestion hostname qType } = .ok rsp →
        rsp.res.rcode = RcodeSuccess →
        Bootstrap.resolveType parseIP chain hostname qType
          = .ok (rsp.res.answer.filterMap rrAddress)) := by
  refine ⟨?_, ?_, ?_⟩
  · intro e he
    simp [Bootstrap.resolveType, hnl, he]
  · intro rsp hok hrc
    simp [Bootstrap.resolveType, hnl, hok, hrc]
  · intro rsp hok hrc
    simp [Bootstrap.resolveType, hnl, hok, hrc, extractAnswerIPs_eq_filterMap]

/-- Witness for C7: the three behaviours at concrete chains — a chain error, a
SERVFAIL response with a non-empty answer, and a success response with a mixed
answer section. -/
theorem resolveType_nonliteral_behaviour_witness :
    Bootstrap.resolveType pfNone chainBoom "example.com" QType.A
        = .error "chain invoked" ∧
      Bootstrap.resolveType pfNone chainServFail "example.com" QType.A = .ok [] ∧
      Bootstrap.resolveType pfNone chainMixed "example.com" QType.A
        = .ok ["192.0.2.1", "2001:db8::2"] := by
  refine ⟨?_, ?_, ?_⟩
  · exact (resolveType_nonliteral_behaviour pfNone chainBoom "example.com" QType.A
      rfl).1 "chain invoked" rfl
  · exact (resolveType_nonliteral_behaviour pfNone chainServFail "example.com" QType.A
      rfl).2.1 _ rfl (by decide)
  · exact (resolveType_nonliteral_behaviour pfNone chainMixed "example.com" QType.A
      rfl).2.2 _ rfl rfl

/-- C2 counterexample: on a chain where the A query errors and the AAAA query
yields one address, resolve returns the address TOGETHER with a non-nil
aggregated error, refuting the claim that it succeeds with no error whenever
at least one record type yields an address. -/
theorem resolve_partial_success_error_counterexample :
    Bootstrap.resolveType pfNone chainAErr "example.com" QType.A
        = .error "A lookup failed" ∧
      Bootstrap.resolveType pfNone chainAErr "example.com" QType.AAAA
        = .ok ["2001:db8::1"] ∧
      Bootstrap.resolve pfNone chainAErr "example.com" v4v6QTypes
        = (["2001:db8::1"], some (.multi ["A lookup failed"])) := by
  refine ⟨rfl, rfl, rfl⟩

/-- C2 amended: resolve(hostname, [A, AAAA]) returns the collected addresses
with a nil error only when neither record-type query errored; when exactly one
type errors it returns the other type's addresses together with the aggregated
error (a non-nil error even on partial success); when both error it returns
both aggregated errors; and when both cleanly return zero records it returns
the "no such host" error. -/
theorem resolve_v4v6_aggregation (parseIP : ParseIP) (chain : Resolver)
    (hostname : String) :
    (∀ ips1 ips2,
        Bootstrap.resolveType parseIP chain hostname QType.A = .ok ips1 →
        Bootstrap.resolveType parseIP chain hostname QType.AAAA = .ok ips2 →
        ips1 ++ ips2 ≠ [] →
        Bootstrap.resolve parseIP chain hostname v4v6QTypes = (ips1 ++ ips2, none)) ∧
    (Bootstrap.resolveType parseIP chain hostname QType.A = .ok [] →
        Bootstrap.resolveType parseIP chain hostname QType.AAAA = .ok [] →
        Bootstrap.resolve parseIP chain hostname v4v6QTypes
          = ([], some (.noSuchHost hostname))) ∧
    (∀ e ips2,
        Bootstrap.resolveType parseIP chain hostname QType.A = .error e →
        Bootstrap.resolveType parseIP chain hostname QType.AAAA = .ok ips2 →
        Bootstrap.resolve parseIP chain hostname v4v6QTypes
          = (ips2, some (.multi [e]))) ∧
    (∀ ips1 e,
        Bootstrap.resolveType parseIP chain hostname QType.A = .ok ips1 →
        Bootstrap.resolveType parseIP chain hostname QType.AAAA = .error e →
        Bootstrap.resolve parseIP chain hostname v4v6QTypes
          = (ips1, some (.multi [e]))) ∧
    (∀ e1 e2,
        Bootstrap.resolveType parseIP chain hostname QType.A = .error e1 →
        Bootstrap.resolveType parseIP chain hostname QType.AAAA = .error e2 →
        Bootstrap.resolve parseIP chain hostname v4v6QTypes
          = ([], some (.multi [e1, e2]))) := by
  refine ⟨?_, ?_, ?_, ?_, ?_⟩
  · intro ips1 ips2 h1 h2 hne
    simp [Bootstrap.resolve, v4v6QTypes, resolveStep, h1, h2, hne]
  · intro h1 h2
    simp [Bootstrap.resolve, v4v6QTypes, resolveStep, h1, h2]
  · intro e ips2 h1 h2
    simp [Bootstrap.resolve, v4v6QTypes, resolveStep, h1, h2]
  · intro ips1 e h1 h2
    simp [Bootstrap.resolve, v4v6QTypes, resolveStep, h1, h2]
  · intro e1 e2 h1 h2
    simp [Bootstrap.resolve, v4v6QTypes, resolveStep, h1, h2]

/-- Witness for the amended C2, exercising the partial-success case on a
chain whose A query errors while AAAA yields one address. -/
theorem resolve_v4v6_aggregation_witness :
    Bootstrap.resolve pfNone chainAErr "example.com" v4v6QTypes
      = (["2001:db8::1"], some (.multi ["A lookup failed"])) :=
  (resolve_v4v6_aggregation pfNone chainAErr "example.com").2.2.1
    "A lookup failed" ["2001:db8::1"] rfl rfl

/-- The loop body of `newBootstrapedResolvers` appends exactly the validation
error of the processed entry (none for a valid entry). -/
theorem bootstrapStep_snd (parseIP : ParseIP)
    (acc : List (Nat × List IP) × List BootErr) (p : Nat × BootstrapDNSEntry) :
    (bootstrapStep parseIP acc p).2
      = acc.2 ++ (entryValidationError parseIP p).toList := by
  unfold bootstrapStep entryValidationError
  by_cases h1 : p.2.upstream.isDefault
  · simp [h1]
  · by_cases h2 : p.2.upstream.net = NetProtocol.tcpUdp
    · cases hp : parseIP p.2.upstream.host <;> simp [h1, h2, hp]
    · by_cases h3 : p.2.ips = [] <;> simp [h1, h2, h3]

/-- The validation loop collects, in order, one error for every invalid
entry. -/
theorem bootstrapFold_errs (parseIP : ParseIP) (l : List (Nat × BootstrapDNSEntry)) :
    ∀ acc : List (Nat × List IP) × List BootErr,
      (l.foldl (bootstrapStep parseIP) acc).2
        = acc.2 ++ l.filterMap (entryValidationError parseIP) := by
  induction l with
  | nil =>
    intro acc
    simp
  | cons p ps ih =>
    intro acc
    rw [List.foldl_cons, ih, bootstrapStep_snd]
    cases h : entryValidationError parseIP p <;>
      simp [List.filterMap_cons, h]

/-- C3: whenever the bootstrap configuration has at least one invalid entry
(an unconfigured default upstream, a raw TCP+UDP upstream whose host is not a
literal IP, or an other-protocol upstream with an empty hardcoded IP list),
NewBootstrap fails with a single error wrapping the list of exactly one
validation error per invalid entry, in configuration order; no Bootstrap value
is produced. -/
theorem newBootstrap_atomic_validation (parseIP : ParseIP)
    (mkChain : List (Nat × List IP) → Except Err Resolver)
    (cfg : List BootstrapDNSEntry)
    (hbad : (enumFrom1 cfg).filterMap (entryValidationError parseIP) ≠ []) :
    NewBootstrap parseIP mkChain cfg
      = .error (.invalidBootstrapDNS
          ((enumFrom1 cfg).filterMap (entryValidationError parseIP))) := by
  have h : ((enumFrom1 cfg).foldl (bootstrapStep parseIP) ([], [])).2
      = (enumFrom1 cfg).filterMap (entryValidationError parseIP) := by
    simpa using bootstrapFold_errs parseIP (enumFrom1 cfg) ([], [])
  unfold NewBootstrap newBootstrapedResolvers
  simp only [h, hbad, if_neg hbad]
  simp

/-- Witness for C3: a configuration whose first entry is a raw-protocol
upstream configured by hostname fails atomically with exactly that entry's
validation error, even though the second entry is valid. -/
theorem newBootstrap_atomic_validation_witness :
    NewBootstrap pfNone mkChain0 cfgBad
        = .error (.invalidBootstrapDNS
            ((enumFrom1 cfgBad).filterMap (entryValidationError pfNone))) ∧
      (enumFrom1 cfgBad).filterMap (entryValidationError pfNone)
        = [.mustUseIP 1 upBad] := by
  refine ⟨newBootstrap_atomic_validation pfNone mkChain0 cfgBad (by decide), by decide⟩

/-! Lemmas about the conditional suffix-matching loop. -/

/-- Stripping through the first dot strictly shortens the domain. -/
theorem dropThroughFirstDot_length : ∀ {l rest : List Char},
    dropThroughFirstDot l = some rest → rest.length < l.length := by
  intro l
  induction l with
  | nil =>
    intro rest h
    simp [dropThroughFirstDot] at h
  | cons c cs ih =>
    intro rest h
    by_cases hc : c = '.'
    · simp only [dropThroughFirstDot, if_pos hc, Option.some.injEq] at h
      subst h
      exact Nat.lt_succ_self cs.length
    · simp only [dropThroughFirstDot, if_neg hc] at h
      exact Nat.lt_trans (ih h) (Nat.lt_succ_self cs.length)

/-- A domain without a dot contributes no suffixes. -/
theorem suffixesAfterDots_none : ∀ {d : List Char},
    dropThroughFirstDot d = none → suffixesAfterDots d = [] := by
  intro d
  induction d with
  | nil => intro _; rfl
  | cons c cs ih =>
    intro h
    by_cases hc : c = '.'
    · simp [dropThroughFirstDot, hc] at h
    · simp only [dropThroughFirstDot, if_neg hc] at h
      simp [suffixesAfterDots, hc, ih h]

/-- The suffix list starts with the remainder after the first dot. -/
theorem suffixesAfterDots_some : ∀ {d rest : List Char},
    dropThroughFirstDot d = some rest →
    suffixesAfterDots d = rest :: suffixesAfterDots rest := by
  intro d
  induction d with
  | nil =>
    intro rest h
    simp [dropThroughFirstDot] at h
  | cons c cs ih =>
    intro rest h
    by_cases hc : c = '.'
    · simp only [dropThroughFirstDot, if_pos hc, Option.some.injEq] at h
      subst h
      simp [suffixesAfterDots, hc]
    · simp only [dropThroughFirstDot, if_neg hc] at h
      simp [suffixesAfterDots, hc, ih h]

/-- Cutting the suffix list at the first empty suffix yields exactly the
spec-side candidate list of the first suffix. -/
theorem takeWhile_suffixes_eq_spec (rest : List Char) :
    (rest :: suffixesAfterDots rest).takeWhile (fun s => !s.isEmpty)
      = specSuffixCandidates rest := by
  cases rest with
  | nil => simp [List.takeWhile_cons, specSuffixCandidates]
  | cons c cs => simp [List.takeWhile_cons, specSuffixCandidates]

/-- The bounded matching loop, run with enough fuel, is the first-match search
over the spec-side candidate list. -/
theorem lookupDottedFuel_spec (m : List (String × Resolver)) :
    ∀ (n : Nat) (d : List Char), d.length < n →
      lookupDottedFuel m n d = (specSuffixCandidates d).findSome? (candidateHit m) := by
  intro n
  induction n with
  | zero =>
    intro d hd
    exact absurd hd (Nat.not_lt_zero _)
  | succ n ih =>
    intro d hd
    cases d with
    | nil => simp [lookupDottedFuel, specSuffixCandidates]
    | cons c cs =>
      cases hlm : lookupMapping m (String.mk (c :: cs)) with
      | some reso =>
        simp [lookupDottedFuel, specSuffixCandidates, List.findSome?_cons,
          candidateHit, hlm]
      | none =>
        cases hdrop : dropThroughFirstDot (c :: cs) with
        | none =>
          have hsfx := suffixesAfterDots_none hdrop
          simp [lookupDottedFuel, specSuffixCandidates, List.findSome?_cons,
            candidateHit, hlm, hdrop, hsfx]
        | some rest =>
          have hsfx := suffixesAfterDots_some hdrop
          have hlen : rest.length < n := by
            have h1 := dropThroughFirstDot_length hdrop
            simp only [List.length_cons] at h1 hd
            omega
          have hL : lookupDottedFuel m (n + 1) (c :: cs) = lookupDottedFuel m n rest := by
            simp [lookupDottedFuel, hlm, hdrop]
          have hR : (specSuffixCandidates (c :: cs)).findSome? (candidateHit m)
              = (specSuffixCandidates rest).findSome? (candidateHit m) := by
            rw [specSuffixCandidates]
            simp only [List.isEmpty_cons, if_neg Bool.false_ne_true, hsfx,
              takeWhile_suffixes_eq_spec]
            simp [List.findSome?_cons, candidateHit, hlm]
          rw [hL, ih rest hlen, hR]

/-- The source matching loop equals the spec-side first-match search. -/
theorem lookupDotted_eq_spec (m : List (String × Resolver)) (d : List Char) :
    lookupDotted m d = (specSuffixCandidates d).findSome? (candidateHit m) :=
  lookupDottedFuel_spec m (d.length + 1) d (Nat.lt_succ_self _)

/-- A first-match search over candidates that all miss finds nothing. -/
theorem findSome?_eq_none_of_forall {α β : Type} (f : α → Option β) :
    ∀ l : List α, (∀ x ∈ l, f x = none) → l.findSome? f = none := by
  intro l
  induction l with
  | nil => intro _; rfl
  | cons a as ih =>
    intro h
    rw [List.findSome?_cons, h a (by simp)]
    exact ih fun x hx => h x (by simp [hx])

/-- A mapping in which a lookup can succeed is non-empty. -/
theorem lookupMapping_ne_none_nonempty {m : List (String × Resolver)} {k : String}
    (h : lookupMapping m k ≠ none) : 0 < m.length := by
  cases m with
  | nil => simp [lookupMapping] at h
  | cons a l => simp

/-- The bounded loop finds nothing in an empty mapping. -/
theorem lookupDottedFuel_nil_mapping : ∀ (n : Nat) (d : List Char),
    lookupDottedFuel [] n d = none := by
  intro n
  induction n with
  | zero => intro d; rfl
  | succ n ih =>
    intro d
    cases d with
    | nil => rfl
    | cons c cs =>
      cases hdrop : dropThroughFirstDot (c :: cs) with
      | some rest => simp [lookupDottedFuel, lookupMapping, hdrop, ih]
      | none => simp [lookupDottedFuel, lookupMapping, hdrop]

/-- With an empty mapping no request is matched. -/
theorem processRequest_nil_mapping (r : ConditionalUpstreamResolver)
    (request : Request) (hm : r.mapping = []) :
    (r.processRequest request).2 = none := by
  simp [ConditionalUpstreamResolver.processRequest, hm, lookupDotted,
    lookupDottedFuel_nil_mapping, lookupMapping]

/-- C4: the conditional matching order. First, the source loop tries the
spec-side candidates (full domain, then each progressive strip of the leftmost
label) most-specific-first, first match winning. Second, a dot-free
single-label domain is matched only against the root `.` entry: without a `.`
entry it never matches (even when the mapping holds the label itself), with
one it always matches. Third, a dotted domain all of whose suffix candidates
miss is delegated unchanged to the next chain link even when a `.` entry
exists. -/
theorem conditional_matching_order (r : ConditionalUpstreamResolver)
    (request : Request) (q : Question) (qs : List Question)
    (hq : request.req.question = q :: qs) :
    (lookupDotted r.mapping (extractDomain q).data
        = (specSuffixCandidates (extractDomain q).data).findSome?
            (candidateHit r.mapping)) ∧
    ((extractDomain q).data.contains '.' = false →
      (lookupMapping r.mapping "." = none → (r.processRequest request).2 = none) ∧
      (∀ reso, lookupMapping r.mapping "." = some reso →
        ((r.processRequest request).2).isSome = true)) ∧
    ((extractDomain q).data.contains '.' = true →
      (∀ s ∈ specSuffixCandidates (extractDomain q).data,
        lookupMapping r.mapping (String.mk s) = none) →
      lookupMapping r.mapping "." ≠ none →
      r.Resolve request = (request, r.next request)) := by
  refine ⟨lookupDotted_eq_spec r.mapping (extractDomain q).data, ?_, ?_⟩
  · intro hnodot
    have hnodot' : '.' ∉ (extractDomain q).data := by
      simpa using hnodot
    constructor
    · intro hroot
      simp [ConditionalUpstreamResolver.processRequest, hq, hnodot', hroot]
    · intro reso hroot
      simp [ConditionalUpstreamResolver.processRequest, hq, hnodot', hroot]
  · intro hdot hall hroot
    have hdot' : '.' ∈ (extractDomain q).data := by
      simpa using hdot
    have hnone : lookupDotted r.mapping (extractDomain q).data = none := by
      rw [lookupDotted_eq_spec]
      exact findSome?_eq_none_of_forall _ _
        (fun s hs => by simp [candidateHit, hall s hs])
    have hpr : r.processRequest request = (request, none) := by
      simp [ConditionalUpstreamResolver.processRequest, hq, hdot', hnone]
    have hlen : 0 < r.mapping.length := lookupMapping_ne_none_nonempty hroot
    simp [ConditionalUpstreamResolver.Resolve, hlen, hpr]

/-- Witness for C4 on the spec's own example mapping: the loop-spec equation
at `a.b.example.com`; the dot-free label `other` matching through the `.`
entry; and `foo.org` falling through to the next link untouched although a
`.` entry exists. -/
theorem conditional_matching_order_witness :
    (lookupDotted condRoot.mapping (extractDomain qABEx).data
        = (specSuffixCandidates (extractDomain qABEx).data).findSome?
            (candidateHit condRoot.mapping)) ∧
    ((condRoot.processRequest reqOther).2).isSome = true ∧
    condRoot.Resolve reqFooOrg = (reqFooOrg, condRoot.next reqFooOrg) := by
  refine ⟨?_, ?_, ?_⟩
  · exact (conditional_matching_order condRoot reqABEx qABEx [] rfl).1
  · exact ((conditional_matching_order condRoot reqOther ⟨"other", .A⟩ [] rfl).2.1
      (by decide)).2 u2c rfl
  · refine (conditional_matching_order condRoot reqFooOrg ⟨"foo.org", .A⟩ [] rfl).2.2
      (by decide) ?_ ?_
    · intro s hs
      have he : specSuffixCandidates
            (extractDomain (⟨"foo.org", QType.A⟩ : Question)).data
          = ["foo.org".data, "org".data] := by decide
      rw [he] at hs
      simp only [List.mem_cons, List.not_mem_nil, or_false] at hs
      rcases hs with h | h
      · subst h; rfl
      · subst h; rfl
    · rw [show lookupMapping condRoot.mapping "." = some u2c from rfl]
      simp

/-! Lemmas about the conditional rewrite of the question name. -/

/-- Writing the first question's name on a message with a question makes it
the first question's name. -/
theorem setQ0Name_q0Name (m : DnsMsg) (name : String) (hne : m.question ≠ []) :
    (m.setQ0Name name).q0Name = name := by
  obtain ⟨qlist, rc, ans⟩ := m
  cases qlist with
  | nil => simp at hne
  | cons a l => rfl

/-- `internalResolve` leaves the request's question name at the
fully-qualified form of `doFQ`, and on success writes that same name into the
response's question (when the response has one). -/
theorem internalResolve_names (reso : Resolver) (doFQ dom : String)
    (req : Request) (hne : req.req.question ≠ []) :
    ((internalResolve reso doFQ dom req).1.req.q0Name = fqdn doFQ) ∧
    (∀ resp, (internalResolve reso doFQ dom req).2 = .ok resp →
      resp.res.question ≠ [] → resp.res.q0Name = fqdn doFQ) := by
  have hq0 : (req.req.setQ0Name (fqdn doFQ)).q0Name = fqdn doFQ :=
    setQ0Name_q0Name req.req (fqdn doFQ) hne
  simp only [internalResolve]
  cases hcall : reso { req := req.req.setQ0Name (fqdn doFQ) } with
  | error e =>
    constructor
    · exact hq0
    · intro resp hresp
      simp at hresp
  | ok response =>
    constructor
    · exact hq0
    · intro resp hresp hner
      simp only [Except.ok.injEq] at hresp
      by_cases hlen : response.res.question.length > 0
      · rw [if_pos hlen] at hresp
        subst hresp
        have hrne : response.res.question ≠ [] := by
          intro hcon
          rw [hcon] at hlen
          simp at hlen
        have hgoal := setQ0Name_q0Name response.res
          (({ req := req.req.setQ0Name (fqdn doFQ) } : Request).req.q0Name) hrne
        rw [hgoal]
        exact hq0
      · rw [if_neg hlen] at hresp
        subst hresp
        exact absurd (List.length_eq_zero.mp (Nat.eq_zero_of_not_pos hlen)) hner

/-- On any matched request, `processRequest` leaves the request's question
name fully qualified and, on success, the response's question carries the same
fully-qualified form. -/
theorem processRequest_names (r : ConditionalUpstreamResolver)
    (request : Request) (q : Question) (qs : List Question)
    (hq : request.req.question = q :: qs) :
    ((r.processRequest request).2 ≠ none →
      (r.processRequest request).1.req.q0Name = fqdn (extractDomain q)) ∧
    (∀ res resp, (r.processRequest request).2 = some res → res = .ok resp →
      resp.res.question ≠ [] → resp.res.q0Name = fqdn (extractDomain q)) := by
  have hne : request.req.question ≠ [] := by
    rw [hq]
    simp
  unfold ConditionalUpstreamResolver.processRequest
  rw [hq]
  simp only [List.headD_cons]
  by_cases hdot : (extractDomain q).data.contains '.'
  · rw [if_pos hdot]
    cases hl : lookupDotted r.mapping (extractDomain q).data with
    | none => simp
    | some pr =>
      obtain ⟨dom, reso⟩ := pr
      have hi := internalResolve_names reso (extractDomain q) dom request hne
      constructor
      · intro _
        exact hi.1
      · intro res resp hres hok hner
        simp only [Option.some.injEq] at hres
        exact hi.2 resp (by rw [hres, hok]) hner
  · rw [if_neg hdot]
    cases hl : lookupMapping r.mapping "." with
    | none => simp
    | some reso =>
      have hi := internalResolve_names reso (extractDomain q) (extractDomain q)
        request hne
      constructor
      · intro _
        exact hi.1
      · intro res resp hres hok hner
        simp only [Option.some.injEq] at hres
        exact hi.2 resp (by rw [hres, hok]) hner

/-- C1 counterexample: for the matched, non-fully-qualified question
`sub.example.com`, Resolve returns the request still carrying the
fully-qualified `sub.example.com.` (no restore), and the response's question
also carries `sub.example.com.` rather than the original name. -/
theorem conditional_no_restore_counterexample :
    ((condEx.processRequest reqSub).2).isSome = true ∧
    (condEx.Resolve reqSub).1.req.q0Name = "sub.example.com." ∧
    "sub.example.com." ≠ "sub.example.com" ∧
    (condEx.Resolve reqSub).2 = .ok respEx ∧
    respEx.res.q0Name = "sub.example.com." := by
  refine ⟨by decide, by decide, by decide, by decide, rfl⟩

/-- C1 amended: the rewrite is not paired with a restore. On every matched
request, after Resolve returns (on success or error) the request's question
name equals the fully-qualified lower-cased form of the entry name, and on
success the response's question (when present) carries that same
fully-qualified form, not the original; caller and response see the original
name only when it was already in lower-case fully-qualified form. -/
theorem conditional_resolve_fqdn_no_restore (r : ConditionalUpstreamResolver)
    (request : Request) (q : Question) (qs : List Question)
    (hq : request.req.question = q :: qs)
    (hmatched : ((r.processRequest request).2).isSome = true) :
    ((r.Resolve request).1.req.q0Name = fqdn (extractDomain q)) ∧
    (∀ resp, (r.Resolve request).2 = .ok resp → resp.res.question ≠ [] →
      resp.res.q0Name = fqdn (extractDomain q)) := by
  have hnames := processRequest_names r request q qs hq
  have hlen : 0 < r.mapping.length := by
    by_contra hcon
    have hm : r.mapping = [] :=
      List.length_eq_zero.mp (Nat.eq_zero_of_not_pos hcon)
    rw [processRequest_nil_mapping r request hm] at hmatched
    simp at hmatched
  cases hpr : r.processRequest request with
  | mk req1 ores =>
    cases ores with
    | none =>
      rw [hpr] at hmatched
      simp at hmatched
    | some res =>
      have hres : r.Resolve request = (req1, res) := by
        simp [ConditionalUpstreamResolver.Resolve, hlen, hpr]
      rw [hpr] at hnames
      rw [hres]
      constructor
      · exact hnames.1 (by simp)
      · intro resp hok hner
        exact hnames.2 res resp rfl hok hner

/-- Witness for the amended C1 at the concrete matched request `reqSub`: both
the returned request and the response carry the fully-qualified form. -/
theorem conditional_resolve_fqdn_no_restore_witness :
    (condEx.Resolve reqSub).1.req.q0Name
        = fqdn (extractDomain ⟨"sub.example.com", QType.A⟩) ∧
      respEx.res.q0Name = fqdn (extractDomain ⟨"sub.example.com", QType.A⟩) := by
  have h := conditional_resolve_fqdn_no_restore condEx reqSub
    ⟨"sub.example.com", QType.A⟩ [] rfl (by decide)
  exact ⟨h.1, h.2 respEx (by decide) (by decide)⟩

end Blocky
